import Mathlib

/-!
Shallow embedding of the client-side synchronization and monetary
aggregation core of `src/app/static/app.js` (MI-FINANZA).

Modelling conventions:
* JSON values are modelled by `JsVal`; JavaScript `null` and `undefined`
  are collapsed into `JsVal.jnull` (both are falsy and both are produced
  by missing-property access).
* JavaScript numbers are modelled by exact rationals `ℚ`; integer cents by
  `ℤ`.  `Math.round x` is `round x = ⌊x + 1/2⌋` (both round halves up).
* The `Number(string)` coercion is modelled on the plain decimal grammar
  (optional sign, digits, one `.`, digits, surrounding whitespace);
  exponent, hexadecimal and `Infinity` forms are outside the modelled
  grammar and are treated as non-numeric.
* Asynchronous effects (IndexedDB, `fetch`) are modelled by explicit
  failure oracles and `Except` results; an orchestrator becomes a pure
  function from its cached entry and fetch outcomes to the ordered list
  of cache writes and the final screen state.
-/

/-- JSON-like values as delivered by the backend and stored in the cache.
`jnull` also stands for JavaScript `undefined` (both falsy). -/
inductive JsVal where
  | jnull : JsVal
  | jbool : Bool → JsVal
  | jnum : ℚ → JsVal
  | jstr : String → JsVal
  | jobj : List (String × JsVal) → JsVal

/-- JavaScript truthiness for a `JsVal` (objects are always truthy). -/
def truthy : JsVal → Bool
  | .jnull => false
  | .jbool b => b
  | .jnum q => decide (q ≠ 0)
  | .jstr s => decide (s ≠ "")
  | .jobj _ => true

/-- Property access `v[k]`: `jnull` for a missing field or a non-object. -/
def getField : JsVal → String → JsVal
  | .jobj fs, k =>
      (match fs.find? (fun p => p.1 == k) with
        | some p => p.2
        | none => .jnull)
  | _, _ => .jnull

/-- Numeric value of an ASCII digit character. -/
def charVal (c : Char) : ℕ := c.toNat - 48

/-- Longest leading run of ASCII digits, with the remaining characters. -/
def takeDigs : List Char → List Char × List Char
  | [] => ([], [])
  | c :: cs =>
      if c.isDigit then (c :: (takeDigs cs).1, (takeDigs cs).2)
      else ([], c :: cs)

/-- Value of a most-significant-first digit run. -/
def digitsVal (ds : List Char) : ℕ := ds.foldl (fun a c => 10 * a + charVal c) 0

/-- Whitespace trimmed by the JavaScript number coercion (ASCII fragment). -/
def isWs (c : Char) : Bool := c == ' ' || c == '\t' || c == '\n' || c == '\r'

/-- Leading and trailing whitespace removal. -/
def trimWs (cs : List Char) : List Char :=
  ((cs.dropWhile isWs).reverse.dropWhile isWs).reverse

/-- Parse of an unsigned plain decimal literal (`123`, `123.45`, `.5`,
`7.`); `none` models `NaN`. -/
def parseUnsigned (cs : List Char) : Option ℚ :=
  let p := takeDigs cs
  if p.2 = [] then
    if p.1 = [] then none else some (digitsVal p.1 : ℚ)
  else
    if p.2.head? = some '.' then
      let q := takeDigs p.2.tail
      if q.2 = [] then
        if p.1 = [] ∧ q.1 = [] then none
        else some ((digitsVal p.1 : ℚ) + (digitsVal q.1 : ℚ) / 10 ^ q.1.length)
      else none
    else none

/-- Model of the JavaScript `Number(s)` coercion on the plain decimal
grammar: whitespace-trimmed, optionally signed decimal literal; the empty
(or all-whitespace) string coerces to `0`; anything else is `NaN`,
modelled as `none`. -/
def jsNumber (s : String) : Option ℚ :=
  let cs := trimWs s.data
  if cs = [] then some 0
  else if cs.head? = some '-' then (parseUnsigned cs.tail).map (fun q => -q)
  else if cs.head? = some '+' then parseUnsigned cs.tail
  else parseUnsigned cs

/-- Model of `String.prototype.replace(",", ".")`: only the first comma is
replaced. -/
def replComma : List Char → List Char
  | [] => []
  | c :: cs => if c = ',' then '.' :: cs else c :: replComma cs

/-- Model of the JavaScript `s || d` fallback for strings: the empty
string is the only falsy string. -/
def orDefault (s d : String) : String := if s = "" then d else s

/-- Model of `amountStrToCents` (app.js lines 401-405): coerce
`String(amountStr || "0").replace(",", ".")` to a number, map a
non-finite result to `0`, then `Math.round(n * 100)`.  Float arithmetic
is modelled exactly over `ℚ`. -/
def amountStrToCents (amountStr : String) : ℤ :=
  match jsNumber (String.mk (replComma (orDefault amountStr "0").data)) with
  | none => 0
  | some n => round (n * 100)

/-- Two-digit zero padding of a cent remainder below 100. -/
def pad2frac (n : ℕ) : String := if n < 10 then "0" ++ toString n else toString n

/-- Fixed two-fractional-digit decimal rendering of an integer number of
cents, as `(cents / 100).toFixed(2)` produces on exact-hundredth values. -/
def twoDecRender (c : ℤ) : String :=
  (if c < 0 then "-" else "") ++ toString (c.natAbs / 100) ++ "." ++ pad2frac (c.natAbs % 100)

/-- Model of `centsToAmountStr` (app.js lines 407-409):
`(Number(cents || 0) / 100).toFixed(2)`. -/
def centsToAmountStr (cents : ℤ) : String := twoDecRender cents

/-- An abstract decimal string: optional minus sign, integer digits, and
an optional separator (`,` when `comma`, else `.`) followed by fraction
digits (the separator is rendered only when `fracDs` is nonempty). -/
structure DecStr where
  neg : Bool
  intDs : List (Fin 10)
  fracDs : List (Fin 10)
  comma : Bool

/-- Character of a decimal digit. -/
def digitChar (i : Fin 10) : Char := Char.ofNat (48 + i.val)

/-- The decimal separator character selected by a `DecStr`. -/
def sepChar (comma : Bool) : Char := if comma then ',' else '.'

/-- Characters of a `DecStr`. -/
def renderChars (d : DecStr) : List Char :=
  (if d.neg then ['-'] else []) ++ d.intDs.map digitChar ++
    (if d.fracDs = [] then [] else sepChar d.comma :: d.fracDs.map digitChar)

/-- The concrete string denoted by a `DecStr`. -/
def renderDec (d : DecStr) : String := String.mk (renderChars d)

/-- Natural value of a digit list, most significant first. -/
def natValDigits (ds : List (Fin 10)) : ℕ := ds.foldl (fun a i => 10 * a + i.val) 0

/-- Exact numeric value denoted by a `DecStr`. -/
def decValue (d : DecStr) : ℚ :=
  (if d.neg then -1 else 1) *
    ((natValDigits d.intDs : ℚ) + (natValDigits d.fracDs : ℚ) / 10 ^ d.fracDs.length)

/-- The `DecStr` re-rendered with `.` as separator, as after the comma
replacement. -/
def withDot (d : DecStr) : DecStr := DecStr.mk d.neg d.intDs d.fracDs false

/-- Modelled from the spec: the canonical two-fractional-digit decimal
form of a numeric value — the value rounded to the nearest cent (halves
up, the nearest-integer-cent rounding the spec assigns to `toCents`),
rendered with exactly two fraction digits. -/
def canonicalTwoDecimal (q : ℚ) : String := twoDecRender (round (100 * q))

theorem digitChar_isDigit : ∀ i : Fin 10, (digitChar i).isDigit = true := by decide

theorem charVal_digitChar : ∀ i : Fin 10, charVal (digitChar i) = i.val := by decide

theorem digitChar_ne_comma : ∀ i : Fin 10, digitChar i ≠ ',' := by decide

theorem digitChar_ne_minus : ∀ i : Fin 10, digitChar i ≠ '-' := by decide

theorem digitChar_ne_plus : ∀ i : Fin 10, digitChar i ≠ '+' := by decide

theorem isWs_digitChar : ∀ i : Fin 10, isWs (digitChar i) = false := by decide

theorem takeDigs_append (ds : List (Fin 10)) (rest : List Char)
    (h : ∀ c, rest.head? = some c → c.isDigit = false) :
    takeDigs (ds.map digitChar ++ rest) = (ds.map digitChar, rest) := by
  induction ds with
  | nil =>
      cases rest with
      | nil => rfl
      | cons c t => simp [takeDigs, h c rfl]
  | cons d ds ih => simp [takeDigs, digitChar_isDigit d, ih]

theorem takeDigs_map (ds : List (Fin 10)) :
    takeDigs (ds.map digitChar) = (ds.map digitChar, []) := by
  have := takeDigs_append ds [] (by intro c hc; exact Option.noConfusion hc)
  simpa using this

theorem digitsVal_map_aux (ds : List (Fin 10)) (a : ℕ) :
    (ds.map digitChar).foldl (fun a c => 10 * a + charVal c) a =
      ds.foldl (fun a i => 10 * a + i.val) a := by
  induction ds generalizing a with
  | nil => rfl
  | cons d ds ih => simp [charVal_digitChar d, ih]

theorem digitsVal_map (ds : List (Fin 10)) :
    digitsVal (ds.map digitChar) = natValDigits ds := by
  simpa [digitsVal, natValDigits] using digitsVal_map_aux ds 0

theorem replComma_no_comma (l : List Char) (h : ',' ∉ l) : replComma l = l := by
  induction l with
  | nil => rfl
  | cons c t ih =>
      have hc : ¬ (c = ',') := fun he => h (by subst he; exact List.mem_cons_self _ _)
      have ht : ',' ∉ t := fun hm => h (List.mem_cons_of_mem _ hm)
      simp [replComma, hc, ih ht]

theorem replComma_append (l r : List Char) (h : ',' ∉ l) :
    replComma (l ++ ',' :: r) = l ++ '.' :: r := by
  induction l with
  | nil => simp [replComma]
  | cons c t ih =>
      have hc : ¬ (c = ',') := fun he => h (by subst he; exact List.mem_cons_self _ _)
      have ht : ',' ∉ t := fun hm => h (List.mem_cons_of_mem _ hm)
      simp [replComma, hc, ih ht]

theorem dropWhile_eq_self_of_head (p : Char → Bool) (l : List Char)
    (h : ∀ c ∈ l, p c = false) : l.dropWhile p = l := by
  cases l with
  | nil => rfl
  | cons c t => simp [List.dropWhile, h c (List.mem_cons_self c t)]

theorem trimWs_eq_self (l : List Char) (h : ∀ c ∈ l, isWs c = false) : trimWs l = l := by
  have h1 : l.dropWhile isWs = l := dropWhile_eq_self_of_head isWs l h
  have h2 : l.reverse.dropWhile isWs = l.reverse :=
    dropWhile_eq_self_of_head isWs l.reverse (fun c hc => h c (List.mem_reverse.mp hc))
  simp [trimWs, h1, h2]

theorem renderChars_noWs (d : DecStr) : ∀ c ∈ renderChars d, isWs c = false := by
  intro c hc
  simp only [renderChars, List.mem_append] at hc
  rcases hc with (h1 | h2) | h3
  · cases hn : d.neg
    · rw [hn] at h1; simp at h1
    · rw [hn] at h1
      have : c = '-' := by simpa using h1
      subst this; rfl
  · obtain ⟨i, _, hi⟩ := List.mem_map.mp h2
    subst hi; exact isWs_digitChar i
  · by_cases hf : d.fracDs = []
    · rw [if_pos hf] at h3; simp at h3
    · rw [if_neg hf] at h3
      rcases List.mem_cons.mp h3 with h3 | h3
      · subst h3; cases d.comma <;> rfl
      · obtain ⟨i, _, hi⟩ := List.mem_map.mp h3
        subst hi; exact isWs_digitChar i

theorem renderChars_no_comma (d : DecStr) (h : d.comma = false ∨ d.fracDs = []) :
    ',' ∉ renderChars d := by
  intro hc
  simp only [renderChars, List.mem_append] at hc
  rcases hc with (h1 | h2) | h3
  · cases hn : d.neg
    · rw [hn] at h1; simp at h1
    · rw [hn] at h1
      have : (',' : Char) = '-' := by simpa using h1
      exact (by decide : (',' : Char) ≠ '-') this
  · obtain ⟨i, _, hi⟩ := List.mem_map.mp h2
    exact digitChar_ne_comma i hi
  · by_cases hf : d.fracDs = []
    · rw [if_pos hf] at h3; simp at h3
    · rw [if_neg hf] at h3
      rcases List.mem_cons.mp h3 with h3 | h3
      · rcases h with hcm | hcm
        · rw [hcm] at h3
          exact (by decide : (',' : Char) ≠ '.') (by simpa [sepChar] using h3)
        · exact hf hcm
      · obtain ⟨i, _, hi⟩ := List.mem_map.mp h3
        exact digitChar_ne_comma i hi

/-- Character form of the fractional part of a `DecStr`, rendered with a
dot separator. -/
def fracChars (d : DecStr) : List Char :=
  if d.fracDs = [] then [] else '.' :: d.fracDs.map digitChar

theorem parseUnsigned_body (d : DecStr) (h : d.intDs ≠ []) :
    parseUnsigned (d.intDs.map digitChar ++ fracChars d) =
      some ((natValDigits d.intDs : ℚ) +
        (natValDigits d.fracDs : ℚ) / 10 ^ d.fracDs.length) := by
  have hmapne : d.intDs.map digitChar ≠ [] := by simpa using h
  by_cases hf : d.fracDs = []
  · have hfc : fracChars d = [] := by rw [fracChars, if_pos hf]
    have hp : takeDigs (d.intDs.map digitChar ++ fracChars d) =
        (d.intDs.map digitChar, []) := by
      rw [hfc, List.append_nil]; exact takeDigs_map d.intDs
    simp [parseUnsigned, hp, hmapne, hf, digitsVal_map, natValDigits]
  · have hfc : fracChars d = '.' :: d.fracDs.map digitChar := by
      rw [fracChars, if_neg hf]
    have hp : takeDigs (d.intDs.map digitChar ++ fracChars d) =
        (d.intDs.map digitChar, '.' :: d.fracDs.map digitChar) := by
      rw [hfc]
      exact takeDigs_append d.intDs _ (by intro c hc; injection hc with hc; subst hc; rfl)
    simp [parseUnsigned, hp, hmapne, digitsVal_map, takeDigs_map]

theorem renderChars_split (d : DecStr) (hc : d.comma = false) :
    renderChars d = (if d.neg then ['-'] else []) ++ (d.intDs.map digitChar ++ fracChars d) := by
  simp [renderChars, fracChars, sepChar, hc, List.append_assoc]

theorem jsNumber_renderDec (d : DecStr) (h : d.intDs ≠ []) (hc : d.comma = false) :
    jsNumber (renderDec d) = some (decValue d) := by
  obtain ⟨i0, t0, hids⟩ := List.exists_cons_of_ne_nil h
  have htrim : trimWs (renderChars d) = renderChars d := trimWs_eq_self _ (renderChars_noWs d)
  have hdata : (renderDec d).data = renderChars d := rfl
  cases hn : d.neg
  · have hchars : renderChars d = d.intDs.map digitChar ++ fracChars d := by
      rw [renderChars_split d hc, hn]; rfl
    have hhead : (renderChars d).head? = some (digitChar i0) := by
      rw [hchars, hids]; rfl
    have hne2 : renderChars d ≠ [] := by
      rw [hchars, hids]; simp
    simp only [jsNumber, hdata, htrim]
    rw [if_neg hne2, hhead]
    rw [if_neg (by simpa using digitChar_ne_minus i0), if_neg (by simpa using digitChar_ne_plus i0)]
    rw [hchars, parseUnsigned_body d h]
    simp [decValue, hn]
  · have hchars : renderChars d = '-' :: (d.intDs.map digitChar ++ fracChars d) := by
      rw [renderChars_split d hc, hn]; rfl
    have hne2 : renderChars d ≠ [] := by rw [hchars]; simp
    have hhead : (renderChars d).head? = some '-' := by rw [hchars]; rfl
    have htail : (renderChars d).tail = d.intDs.map digitChar ++ fracChars d := by
      rw [hchars]; rfl
    simp only [jsNumber, hdata, htrim]
    rw [if_neg hne2, hhead, if_pos rfl, htail, parseUnsigned_body d h]
    simp [decValue, hn]

theorem replComma_renderChars (d : DecStr) :
    replComma (renderChars d) = renderChars (withDot d) := by
  by_cases hf : d.fracDs = []
  · rw [replComma_no_comma _ (renderChars_no_comma d (Or.inr hf))]
    simp [renderChars, withDot, hf]
  · by_cases hcm : d.comma
    · have hsplit : renderChars d =
          ((if d.neg then ['-'] else []) ++ d.intDs.map digitChar) ++
            ',' :: d.fracDs.map digitChar := by
        simp [renderChars, hf, hcm, sepChar, List.append_assoc]
      have hpre : ',' ∉ (if d.neg then ['-'] else []) ++ d.intDs.map digitChar := by
        intro hp
        rcases List.mem_append.mp hp with h1 | h2
        · cases hn : d.neg
          · rw [hn] at h1; simp at h1
          · rw [hn] at h1
            have : (',' : Char) = '-' := by simpa using h1
            exact (by decide : (',' : Char) ≠ '-') this
        · obtain ⟨i, _, hi⟩ := List.mem_map.mp h2
          exact digitChar_ne_comma i hi
      rw [hsplit, replComma_append _ _ hpre]
      simp [renderChars, withDot, sepChar, hf, List.append_assoc]
    · rw [replComma_no_comma _ (renderChars_no_comma d (Or.inl (Bool.not_eq_true _ ▸ hcm)))]
      simp [renderChars, withDot, sepChar, hcm, hf]

theorem renderDec_ne_empty (d : DecStr) (h : d.intDs ≠ []) : renderDec d ≠ "" := by
  intro he
  have hd : renderChars d = ([] : List Char) := congrArg String.data he
  rw [renderChars] at hd
  simp [List.append_eq_nil, h] at hd

theorem amountStrToCents_renderDec (d : DecStr) (h : d.intDs ≠ []) :
    amountStrToCents (renderDec d) = round (decValue d * 100) := by
  have h1 : orDefault (renderDec d) "0" = renderDec d := by
    rw [orDefault, if_neg (renderDec_ne_empty d h)]
  have h2 : String.mk (replComma (renderDec d).data) = renderDec (withDot d) :=
    congrArg String.mk (replComma_renderChars d)
  have h3 : jsNumber (renderDec (withDot d)) = some (decValue d) :=
    jsNumber_renderDec (withDot d) h rfl
  simp only [amountStrToCents, h1, h2, h3]

/-- C1: for every decimal string — optional minus sign, nonempty integer
digit part, optional fractional part behind either a `.` or a `,`
separator — parsing it to cents with `amountStrToCents` and re-rendering
with `centsToAmountStr` yields the canonical two-fractional-digit decimal
form of the string's numeric value. -/
theorem c1_centsRoundTrip (d : DecStr) (h : d.intDs ≠ []) :
    centsToAmountStr (amountStrToCents (renderDec d)) = canonicalTwoDecimal (decValue d) := by
  rw [amountStrToCents_renderDec d h, centsToAmountStr, canonicalTwoDecimal, mul_comm]

/-- C1 witness: the concrete comma-separated decimal string "1,5". -/
theorem c1_centsRoundTrip_witness :
    (DecStr.mk false [1] [5] true).intDs ≠ [] ∧
    centsToAmountStr (amountStrToCents (renderDec (DecStr.mk false [1] [5] true))) =
      canonicalTwoDecimal (decValue (DecStr.mk false [1] [5] true)) :=
  ⟨by decide, c1_centsRoundTrip (DecStr.mk false [1] [5] true) (by decide)⟩

/-- C6: every empty or non-numeric input — any string whose comma-fixed
form the number coercion rejects, including strings that parse to no
finite number — maps to zero cents; totality of `amountStrToCents` models
the never-throws guarantee. -/
theorem c6_nonNumericZero (s : String)
    (h : s = "" ∨ jsNumber (String.mk (replComma (orDefault s "0").data)) = none) :
    amountStrToCents s = 0 := by
  rcases h with h | h
  · subst h
    have hj : jsNumber (String.mk (replComma (orDefault "" "0").data)) = some 0 := by decide
    simp only [amountStrToCents, hj]
    simp
  · simp only [amountStrToCents, h]

/-- C6 witness: the concrete non-numeric input "abc". -/
theorem c6_nonNumericZero_witness :
    ("abc" = "" ∨ jsNumber (String.mk (replComma (orDefault "abc" "0").data)) = none) ∧
    amountStrToCents "abc" = 0 :=
  ⟨Or.inr (by decide), c6_nonNumericZero "abc" (Or.inr (by decide))⟩

/-- A currency-keyed map of JSON values, in JavaScript key insertion
order (currency codes are never integer-like keys, so `Object.keys`
preserves insertion order). -/
abbrev CurrencyMap := List (String × JsVal)

/-- Presence test of the canonical code, modelling `m.EUR !== undefined`. -/
def hasKeyEUR (m : CurrencyMap) : Bool := m.any (fun p => p.1 == "EUR")

/-- First loop of `pickCurrency` (app.js lines 412-414): does any
non-null map carry the key `EUR`. -/
def anyHasEUR : List (Option CurrencyMap) → Bool
  | [] => false
  | none :: rest => anyHasEUR rest
  | some m :: rest => hasKeyEUR m || anyHasEUR rest

/-- Second loop of `pickCurrency` (app.js lines 415-420): first key of
the first non-null, non-empty map. -/
def firstNonEmptyKey : List (Option CurrencyMap) → Option String
  | [] => none
  | none :: rest => firstNonEmptyKey rest
  | some [] :: rest => firstNonEmptyKey rest
  | some ((k, _) :: _) :: _ => some k

/-- Model of `pickCurrency` (app.js lines 411-422); the `maps` list holds
the possibly null/undefined currency maps in argument order. -/
def pickCurrency (maps : List (Option CurrencyMap)) : String :=
  if anyHasEUR maps then "EUR"
  else
    match firstNonEmptyKey maps with
    | some k => k
    | none => "EUR"

/-- Modelled from the spec: deterministic precedence — the canonical code
EUR when present in any of the given maps, else the first key (natural
key order) of the first non-empty map, else EUR. -/
def pickDisplayCurrencySpec (maps : List (Option CurrencyMap)) : String :=
  if (maps.filterMap id).any hasKeyEUR then "EUR"
  else
    match ((maps.filterMap id).find? (fun m => !m.isEmpty)).bind
        (fun m => m.head?.map Prod.fst) with
    | some k => k
    | none => "EUR"

theorem anyHasEUR_eq (maps : List (Option CurrencyMap)) :
    anyHasEUR maps = (maps.filterMap id).any hasKeyEUR := by
  induction maps with
  | nil => rfl
  | cons m rest ih => cases m <;> simp [anyHasEUR, List.filterMap_cons, ih]

theorem firstNonEmptyKey_eq (maps : List (Option CurrencyMap)) :
    firstNonEmptyKey maps =
      ((maps.filterMap id).find? (fun m => !m.isEmpty)).bind
        (fun m => m.head?.map Prod.fst) := by
  induction maps with
  | nil => rfl
  | cons m rest ih =>
      rcases m with _ | mm
      · simpa [firstNonEmptyKey, List.filterMap_cons] using ih
      · rcases mm with _ | ⟨⟨k, v⟩, t⟩
        · simpa [firstNonEmptyKey, List.filterMap_cons, List.find?] using ih
        · simp [firstNonEmptyKey, List.filterMap_cons, List.find?]

/-- C4: `pickCurrency` realizes the spec's deterministic precedence, and
on `bank = EUR:"10.00"`, `income = {}`, `expenses = XAF:"500"` it picks
EUR. -/
theorem c4_pickCurrencyPrecedence :
    (∀ maps : List (Option CurrencyMap), pickCurrency maps = pickDisplayCurrencySpec maps) ∧
    pickCurrency
      [some [("EUR", JsVal.jstr "10.00")], some [], some [("XAF", JsVal.jstr "500")]] =
      "EUR" := by
  constructor
  · intro maps
    rw [pickCurrency, pickDisplayCurrencySpec, anyHasEUR_eq, firstNonEmptyKey_eq]
  · rfl

/-- Model of the profit metric of `renderDashboard` (app.js line 456):
`beneficioCents = incomeCents - expensesCents`. -/
def profitCents (incomeCents expensesCents : ℤ) : ℤ := incomeCents - expensesCents

/-- Model of the progress percentage of `renderDashboard` (app.js line
458): `incomeCents > 0 ? Math.max(0, Math.min(100,
Math.round((expensesCents / incomeCents) * 100))) : 0`, with the float
division modelled exactly over `ℚ`. -/
def progressPct (incomeCents expensesCents : ℤ) : ℤ :=
  if 0 < incomeCents then
    max 0 (min 100 (round (((expensesCents : ℚ) / (incomeCents : ℚ)) * 100)))
  else 0

/-- C5: derived dashboard metrics in integer cents: the concrete profit
equation, the [0,100] clamp of the progress ratio for positive income,
its agreement with the spec's `round(expensesCents * 100 / incomeCents)`
formula, zero progress at zero expenses, and zero for non-positive
income. -/
theorem c5_derivedMetrics :
    profitCents 150000 40000 = 110000 ∧
    (∀ i e : ℤ, 0 < i →
      0 ≤ progressPct i e ∧ progressPct i e ≤ 100 ∧
      progressPct i e = max 0 (min 100 (round (((e : ℚ) * 100) / (i : ℚ)))) ∧
      progressPct i 0 = 0) ∧
    (∀ i e : ℤ, i ≤ 0 → progressPct i e = 0) := by
  refine ⟨by norm_num [profitCents], ?_, ?_⟩
  · intro i e hi
    refine ⟨?_, ?_, ?_, ?_⟩
    · rw [progressPct, if_pos hi]; exact le_max_left _ _
    · rw [progressPct, if_pos hi]; exact max_le (by norm_num) (min_le_left _ _)
    · rw [progressPct, if_pos hi]
      have : ((e : ℚ) / (i : ℚ)) * 100 = ((e : ℚ) * 100) / (i : ℚ) := by ring
      rw [this]
    · rw [progressPct, if_pos hi]; simp
  · intro i e hi
    rw [progressPct, if_neg (not_lt.mpr hi)]

/-- C5 witness: concrete positive and non-positive incomes. -/
theorem c5_derivedMetrics_witness :
    (0 ≤ progressPct 200 50 ∧ progressPct 200 50 ≤ 100) ∧ progressPct (-5) 3 = 0 :=
  ⟨⟨(c5_derivedMetrics.2.1 200 50 (by norm_num)).1,
    (c5_derivedMetrics.2.1 200 50 (by norm_num)).2.1⟩,
   c5_derivedMetrics.2.2 (-5) 3 (by norm_num)⟩

/-- Bank-amount extraction of `renderDashboard` (app.js lines 452-453):
`typeof v === "string" ? amountStrToCents(v) : Number(v || 0)` — a string
value is parsed as a major-unit decimal into cents, any other value goes
through the number coercion (a number is used directly as already-scaled
cents; `Number` of an object would be `NaN`, which the claims never
touch and which this model maps to 0). -/
def dashboardBankCents (bankMap : CurrencyMap) (currency : String) : ℚ :=
  match getField (.jobj bankMap) currency with
  | .jstr s => ((amountStrToCents s : ℤ) : ℚ)
  | .jnum n => n
  | .jbool b => if b then 1 else 0
  | .jnull => 0
  | .jobj _ => 0

/-- C10: in `renderDashboard` the JSON type of the bank value decides its
unit — the string "10" is parsed as major units into 1000 cents while the
number 10 is used directly as 10 cents, a factor-100 difference carried
into the rendered amounts. -/
theorem c10_bankUnitMismatch :
    dashboardBankCents [("EUR", JsVal.jstr "10")] "EUR" = 1000 ∧
    dashboardBankCents [("EUR", JsVal.jnum 10)] "EUR" = 10 ∧
    dashboardBankCents [("EUR", JsVal.jstr "10")] "EUR" =
      100 * dashboardBankCents [("EUR", JsVal.jnum 10)] "EUR" ∧
    centsToAmountStr 1000 = "10.00" ∧
    centsToAmountStr 10 = "0.10" := by
  have h10 : jsNumber (String.mk (replComma (orDefault "10" "0").data)) = some 10 := by decide
  have hstr : amountStrToCents "10" = 1000 := by
    simp only [amountStrToCents, h10]
    norm_num [round_eq]
  have hd1 : dashboardBankCents [("EUR", JsVal.jstr "10")] "EUR" =
      ((amountStrToCents "10" : ℤ) : ℚ) := rfl
  have hd2 : dashboardBankCents [("EUR", JsVal.jnum 10)] "EUR" = 10 := rfl
  refine ⟨?_, hd2, ?_, ?_, ?_⟩
  · rw [hd1, hstr]; norm_num
  · rw [hd1, hstr, hd2]; norm_num
  · rfl
  · rfl

/-- One cache row as stored by `cacheSet`: key, payload, `updatedAt`. -/
structure CacheRow where
  key : String
  data : JsVal
  updatedAt : ℕ

/-- The single IndexedDB object store (`keyPath: "key"`). -/
structure CacheState where
  rows : List CacheRow

/-- Read of `req.result?.data ?? null`: a missing row and a stored JSON
null both collapse to `null` (`none`). -/
def storeLookup (rows : List CacheRow) (key : String) : Option JsVal :=
  match rows.find? (fun r => r.key == key) with
  | some r =>
      (match r.data with
        | .jnull => none
        | v => some v)
  | none => none

/-- Failure oracle for one cache operation: rejection of `openCacheDb`
and failure of the IndexedDB request or transaction. -/
structure StoreFailure where
  openFail : Bool
  opFail : Bool

/-- Body of `cacheGet` before its catch (app.js lines 19-32). -/
def cacheGetE (f : StoreFailure) (st : CacheState) (key : String) :
    Except String (Option JsVal) :=
  if f.openFail then Except.error "open"
  else if f.opFail then Except.error "request"
  else Except.ok (storeLookup st.rows key)

/-- Model of `cacheGet` (app.js lines 19-32): the catch turns any
internal failure into a null cache miss; totality of the function models
the never-throws guarantee. -/
def cacheGet (f : StoreFailure) (st : CacheState) (key : String) : Option JsVal :=
  match cacheGetE f st key with
  | Except.ok v => v
  | Except.error _ => none

/-- The `store.put` upsert: replaces any prior row with the same key. -/
def storePut (rows : List CacheRow) (key : String) (data : JsVal) (now : ℕ) :
    List CacheRow :=
  CacheRow.mk key data now :: rows.filter (fun r => !(r.key == key))

/-- Body of `cacheSet` before its catch (app.js lines 34-45). -/
def cacheSetE (f : StoreFailure) (st : CacheState) (key : String) (data : JsVal)
    (now : ℕ) : Except String CacheState :=
  if f.openFail then Except.error "open"
  else if f.opFail then Except.error "transaction"
  else Except.ok (CacheState.mk (storePut st.rows key data now))

/-- Model of `cacheSet` (app.js lines 34-45): the empty catch makes a
failed write a no-op on the store. -/
def cacheSet (f : StoreFailure) (st : CacheState) (key : String) (data : JsVal)
    (now : ℕ) : CacheState :=
  match cacheSetE f st key data now with
  | Except.ok st2 => st2
  | Except.error _ => st

theorem find_filter_ne (rows : List CacheRow) (key k2 : String) (h : ¬ k2 = key) :
    (rows.filter (fun r => !(r.key == key))).find? (fun r => r.key == k2) =
      rows.find? (fun r => r.key == k2) := by
  induction rows with
  | nil => rfl
  | cons r rows ih =>
      by_cases hk : r.key = key
      · have h1 : (r.key == key) = true := by simp [hk]
        have h2 : (r.key == k2) = false :=
          beq_eq_false_iff_ne.mpr (by rw [hk]; exact fun he => h he.symm)
        have hfil : List.filter (fun r => !(r.key == key)) (r :: rows) =
            List.filter (fun r => !(r.key == key)) rows := by
          simp [List.filter_cons, h1]
        have h3 : ¬ ((fun r : CacheRow => r.key == k2) r = true) := by simp [h2]
        rw [hfil, ih, @List.find?_cons_of_neg _ (fun r => r.key == k2) r rows h3]
      · have h1 : (r.key == key) = false := beq_eq_false_iff_ne.mpr hk
        have hfil : List.filter (fun r => !(r.key == key)) (r :: rows) =
            r :: List.filter (fun r => !(r.key == key)) rows := by
          simp [List.filter_cons, h1]
        rw [hfil]
        by_cases hk2 : r.key = k2
        · have h2 : (r.key == k2) = true := by simp [hk2]
          rw [@List.find?_cons_of_pos _ (fun r => r.key == k2) r _ h2,
            @List.find?_cons_of_pos _ (fun r => r.key == k2) r _ h2]
        · have h2 : ¬ ((fun r : CacheRow => r.key == k2) r = true) := by
            simp [beq_eq_false_iff_ne.mpr hk2]
          rw [@List.find?_cons_of_neg _ (fun r => r.key == k2) r _ h2,
            @List.find?_cons_of_neg _ (fun r => r.key == k2) r _ h2, ih]

/-- C7: cache operations never propagate failures: a read returns the
stored payload when present and null on absence or any internal failure,
a write degrades to a no-op on any internal failure, a successful write
overwrites the prior value for its key and preserves every other key,
and both operations are total (never throw). -/
theorem c7_cacheFailurePolicy (f : StoreFailure) (st : CacheState) (key k2 : String)
    (data : JsVal) (now : ℕ) :
    cacheGet f st key =
      (if f.openFail || f.opFail then none else storeLookup st.rows key) ∧
    cacheSet f st key data now =
      (if f.openFail || f.opFail then st
       else CacheState.mk (storePut st.rows key data now)) ∧
    storeLookup (storePut st.rows key data now) k2 =
      (if k2 = key then
        (match data with
          | JsVal.jnull => none
          | v => some v)
       else storeLookup st.rows k2) := by
  refine ⟨?_, ?_, ?_⟩
  · rcases f with ⟨o, p⟩
    cases o <;> cases p <;> rfl
  · rcases f with ⟨o, p⟩
    cases o <;> cases p <;> rfl
  · by_cases hk : k2 = key
    · subst hk
      rw [if_pos rfl]
      simp only [storeLookup, storePut]
      rw [List.find?_cons_of_pos _ (by simp)]
    · rw [if_neg hk]
      simp only [storeLookup, storePut]
      rw [List.find?_cons_of_neg _
          (by simp [beq_eq_false_iff_ne.mpr (fun he => hk he.symm)]),
        find_filter_ne st.rows key k2 hk]

/-- What a view root is showing after an orchestrator run. -/
inductive VScreen where
  | initialHtml : VScreen
  | loadingMsg : VScreen
  | content : JsVal → VScreen
  | alertMsg : String → VScreen

/-- Dashboard cache key `dashboard:{year}-{month}` (app.js line 184). -/
def dashCacheKey (y m : ℕ) : String :=
  "dashboard:" ++ toString y ++ "-" ++ toString m

/-- Model of `String(n).padStart(2, "0")` for the month number. -/
def pad2 (n : ℕ) : String :=
  if (toString n).length < 2 then "0" ++ toString n else toString n

/-- Report cache key `report:{y}-{m padded}` (app.js line 1185). -/
def reportCacheKey (y m : ℕ) : String :=
  "report:" ++ toString y ++ "-" ++ pad2 m

/-- Model of `initDashboard` (app.js lines 179-201) as a function of the
cached entry and the two parallel fetch outcomes, returning the ordered
cache writes and the final screen.  The `Promise.all` pair fails as a
whole when either fetch rejects, and the catch renders the failure alert
only when no cached entry existed. -/
def initDashboardM (y m : ℕ) (cached : Option JsVal)
    (fbootstrap freport : Except String JsVal) :
    List (String × JsVal) × VScreen :=
  let stale : VScreen :=
    match cached with
    | some c => if truthy (getField c "bootstrap") then .content c else .loadingMsg
    | none => .loadingMsg
  match fbootstrap, freport with
  | .ok b, .ok r =>
      let fresh := JsVal.jobj [("bootstrap", b), ("report", r)]
      ([("bootstrap", b), (dashCacheKey y m, fresh)], .content fresh)
  | .error e, _ => ([], if cached.isSome then stale else .alertMsg e)
  | _, .error e => ([], if cached.isSome then stale else .alertMsg e)

/-- Model of `initCompaniesAndWorkEntries` (app.js lines 528-551): the
two fetches are sequential and the companies cache write happens before
the work-entries fetch.  Returns (cache writes, companies screen,
work-entries screen).  The shared catch writes a failure alert into each
root whose own cached entry was absent. -/
def initCompaniesM (cachedC cachedE : Option JsVal)
    (fcompanies fentries : Except String JsVal) :
    List (String × JsVal) × VScreen × VScreen :=
  let staleC : VScreen :=
    match cachedC with
    | some c => if truthy (getField c "companies") then .content c else .initialHtml
    | none => .initialHtml
  let staleE : VScreen :=
    match cachedE with
    | some c => if truthy (getField c "entries") then .content c else .initialHtml
    | none => .initialHtml
  match fcompanies with
  | .error e =>
      ([], (if cachedC.isSome then staleC else .alertMsg e),
        (if cachedE.isSome then staleE else .alertMsg e))
  | .ok cs =>
      match fentries with
      | .error e =>
          ([("companies", cs)],
            (if cachedC.isSome then .content cs else .alertMsg e),
            (if cachedE.isSome then staleE else .alertMsg e))
      | .ok en => ([("companies", cs), ("workEntries", en)], .content cs, .content en)

/-- Model of the list-root behaviour of `initExpenses` (app.js lines
737-758); the form root is rendered independently of the fetch. -/
def initExpensesM (cached : Option JsVal) (f : Except String JsVal) :
    List (String × JsVal) × VScreen :=
  let stale : VScreen :=
    match cached with
    | some c => if truthy (getField c "expenses") then .content c else .initialHtml
    | none => .initialHtml
  match f with
  | .ok v => ([("expenses", v)], .content v)
  | .error e => ([], if cached.isSome then stale else .alertMsg e)

/-- Model of `initBank` (app.js lines 851-875): returns (cache writes,
balance-root screen, movements-root screen); on failure the alert goes
only to the balance root, and only when no cached entry existed. -/
def initBankM (cached : Option JsVal) (f : Except String JsVal) :
    List (String × JsVal) × VScreen × VScreen :=
  let staleBal : VScreen :=
    match cached with
    | some c => if truthy (getField c "balanceByCurrency") then .content c else .loadingMsg
    | none => .loadingMsg
  let staleMov : VScreen :=
    match cached with
    | some c => if truthy (getField c "balanceByCurrency") then .content c else .initialHtml
    | none => .initialHtml
  match f with
  | .ok v => ([("bankSummary", v)], .content v, .content v)
  | .error e => ([], (if cached.isSome then staleBal else .alertMsg e), staleMov)

/-- Model of the list-root behaviour of `initDebts` (app.js lines
951-972). -/
def initDebtsM (cached : Option JsVal) (f : Except String JsVal) :
    List (String × JsVal) × VScreen :=
  let stale : VScreen :=
    match cached with
    | some c => if truthy (getField c "debts") then .content c else .initialHtml
    | none => .initialHtml
  match f with
  | .ok v => ([("debts", v)], .content v)
  | .error e => ([], if cached.isSome then stale else .alertMsg e)

/-- Model of `loadReport` inside `initReports` (app.js lines 1184-1198):
returns (cache writes, content screen, status line text).  The catch
always writes the error message into the status line and renders the
alert into the content root only when no cached entry existed. -/
def loadReportM (y m : ℕ) (cached : Option JsVal) (f : Except String JsVal) :
    List (String × JsVal) × VScreen × String :=
  let stale : VScreen :=
    match cached with
    | some c => if truthy (getField c "ok") then .content c else .loadingMsg
    | none => .loadingMsg
  match f with
  | .ok v =>
      ([(reportCacheKey y m, v)], .content v,
        if truthy (getField v "isClosed") then "Mes cerrado" else "Mes abierto")
  | .error e => ([], (if cached.isSome then stale else .alertMsg e), e)

/-- C2 counterexample: in the companies/work-entries view a failing
work-entries fetch (after a successful companies fetch) still leaves a
cache write for the view, so a failing fresh fetch does not imply "no
cache write occurs for that view". -/
theorem c2_counterexample :
    (initCompaniesM none none (Except.ok (JsVal.jobj [])) (Except.error "network")).1 =
      [("companies", JsVal.jobj [])] ∧
    (initCompaniesM none none (Except.ok (JsVal.jobj [])) (Except.error "network")).1 ≠ [] := by
  constructor
  · rfl
  · have h : (initCompaniesM none none (Except.ok (JsVal.jobj []))
        (Except.error "network")).1 = [("companies", JsVal.jobj [])] := rfl
    rw [h]
    exact List.cons_ne_nil _ _

/-- C2 amended: on a failing fetch, the dashboard (either of its two
parallel fetches), expenses, bank, debts and report orchestrators write
nothing to the cache; the companies/work-entries orchestrator writes
nothing when the companies fetch fails but keeps the already-written
companies entry when only the work-entries fetch fails.  With no cached
entry the affected root renders an explicit failure alert; with a cached
entry the screen keeps the pre-fetch render — the stale content when the
view's render guard accepted the cached payload, the initial placeholder
otherwise — and the report view additionally writes the error into its
status line. -/
theorem c2_amendedFailurePolicy (y m : ℕ) (cached cc ce : Option JsVal)
    (c b cv : JsVal) (e : String) (fr fe : Except String JsVal) :
    (initDashboardM y m cached (Except.error e) fr).1 = [] ∧
    (initDashboardM y m cached (Except.ok b) (Except.error e)).1 = [] ∧
    (initDashboardM y m none (Except.error e) fr).2 = VScreen.alertMsg e ∧
    (initDashboardM y m none (Except.ok b) (Except.error e)).2 = VScreen.alertMsg e ∧
    (initDashboardM y m (some c) (Except.error e) fr).2 =
      (if truthy (getField c "bootstrap") then VScreen.content c else VScreen.loadingMsg) ∧
    (initDashboardM y m (some c) (Except.ok b) (Except.error e)).2 =
      (if truthy (getField c "bootstrap") then VScreen.content c else VScreen.loadingMsg) ∧
    (initCompaniesM cc ce (Except.error e) fe).1 = [] ∧
    (initCompaniesM cc ce (Except.ok cv) (Except.error e)).1 = [("companies", cv)] ∧
    (initCompaniesM none none (Except.error e) fe).2.1 = VScreen.alertMsg e ∧
    (initCompaniesM none none (Except.error e) fe).2.2 = VScreen.alertMsg e ∧
    (initCompaniesM none none (Except.ok cv) (Except.error e)).2.1 = VScreen.alertMsg e ∧
    (initCompaniesM none none (Except.ok cv) (Except.error e)).2.2 = VScreen.alertMsg e ∧
    (initCompaniesM (some c) ce (Except.error e) fe).2.1 =
      (if truthy (getField c "companies") then VScreen.content c else VScreen.initialHtml) ∧
    (initCompaniesM cc (some c) (Except.error e) fe).2.2 =
      (if truthy (getField c "entries") then VScreen.content c else VScreen.initialHtml) ∧
    (initCompaniesM cc (some c) (Except.ok cv) (Except.error e)).2.2 =
      (if truthy (getField c "entries") then VScreen.content c else VScreen.initialHtml) ∧
    (initExpensesM cached (Except.error e)).1 = [] ∧
    (initExpensesM none (Except.error e)).2 = VScreen.alertMsg e ∧
    (initExpensesM (some c) (Except.error e)).2 =
      (if truthy (getField c "expenses") then VScreen.content c else VScreen.initialHtml) ∧
    (initBankM cached (Except.error e)).1 = [] ∧
    (initBankM none (Except.error e)).2.1 = VScreen.alertMsg e ∧
    (initBankM (some c) (Except.error e)).2.1 =
      (if truthy (getField c "balanceByCurrency") then VScreen.content c
       else VScreen.loadingMsg) ∧
    (initBankM (some c) (Except.error e)).2.2 =
      (if truthy (getField c "balanceByCurrency") then VScreen.content c
       else VScreen.initialHtml) ∧
    (initDebtsM cached (Except.error e)).1 = [] ∧
    (initDebtsM none (Except.error e)).2 = VScreen.alertMsg e ∧
    (initDebtsM (some c) (Except.error e)).2 =
      (if truthy (getField c "debts") then VScreen.content c else VScreen.initialHtml) ∧
    (loadReportM y m cached (Except.error e)).1 = [] ∧
    (loadReportM y m none (Except.error e)).2.1 = VScreen.alertMsg e ∧
    (loadReportM y m (some c) (Except.error e)).2.1 =
      (if truthy (getField c "ok") then VScreen.content c else VScreen.loadingMsg) ∧
    (loadReportM y m cached (Except.error e)).2.2 = e := by
  refine ⟨?_, ?_, ?_, ?_, ?_, ?_, ?_, ?_, ?_, ?_, ?_, ?_, ?_, ?_, ?_, ?_, ?_, ?_,
    ?_, ?_, ?_, ?_, ?_, ?_, ?_, ?_, ?_, ?_, ?_⟩ <;>
    first
      | rfl
      | (cases fr <;> rfl)

/-- Model of the work-entry form submit handler (app.js lines 694-707):
POST, then re-fetch the canonical list and rewrite the cache; any failure
is written to the inline status node next to the form.  Returns (cache
state, list screen, inline status text). -/
def workEntrySubmitM (f : StoreFailure) (st : CacheState) (scr : VScreen)
    (post refetch : Except String JsVal) (now : ℕ) :
    CacheState × VScreen × String :=
  match post with
  | .error e => (st, scr, e)
  | .ok _ =>
      match refetch with
      | .error e => (st, scr, e)
      | .ok fresh => (cacheSet f st "workEntries" fresh now, .content fresh, "")

/-- Model of the expense form submit handler (app.js lines 798-822):
POST, re-fetch expenses (rewriting the "expenses" cache), then re-fetch
the bank summary (rewriting "bankSummary"); failures go to the inline
status node. -/
def expenseSubmitM (f : StoreFailure) (st : CacheState) (scr : VScreen)
    (post refetchExpenses refetchBank : Except String JsVal) (now : ℕ) :
    CacheState × VScreen × String :=
  match post with
  | .error e => (st, scr, e)
  | .ok _ =>
      match refetchExpenses with
      | .error e => (st, scr, e)
      | .ok fresh =>
          let st1 := cacheSet f st "expenses" fresh now
          match refetchBank with
          | .error e => (st1, .content fresh, e)
          | .ok bank => (cacheSet f st1 "bankSummary" bank now, .content fresh, "")

/-- Model of the debt form submit handler (app.js lines 996-1009). -/
def debtSubmitM (f : StoreFailure) (st : CacheState) (scr : VScreen)
    (post refetch : Except String JsVal) (now : ℕ) :
    CacheState × VScreen × String :=
  match post with
  | .error e => (st, scr, e)
  | .ok _ =>
      match refetch with
      | .error e => (st, scr, e)
      | .ok fresh => (cacheSet f st "debts" fresh now, .content fresh, "")

/-- Model of the debt-payment form submit handler (app.js lines
1048-1062): POST the payment, re-fetch debts (rewriting "debts"), then
re-fetch the bank summary (rewriting "bankSummary"); failures go to the
payments box next to the row. -/
def paymentSubmitM (f : StoreFailure) (st : CacheState) (scr : VScreen)
    (post refetchDebts refetchBank : Except String JsVal) (now : ℕ) :
    CacheState × VScreen × String :=
  match post with
  | .error e => (st, scr, e)
  | .ok _ =>
      match refetchDebts with
      | .error e => (st, scr, e)
      | .ok fresh =>
          let st1 := cacheSet f st "debts" fresh now
          match refetchBank with
          | .error e => (st1, .content fresh, e)
          | .ok bank => (cacheSet f st1 "bankSummary" bank now, .content fresh, "")

/-- C9: a failing write call leaves the cache state and the rendered list
byte-identical to before the attempt, and the error message lands in the
inline status node next to the initiating control (the form's status
line, or the payments box of the debt row) rather than in any global
surface, for the create-income, create-expense, create-debt and
add-payment mutations. -/
theorem c9_writeFailureLeavesStateIntact (f : StoreFailure) (st : CacheState)
    (scr : VScreen) (e : String) (r1 r2 : Except String JsVal) (now : ℕ) :
    workEntrySubmitM f st scr (Except.error e) r1 now = (st, scr, e) ∧
    expenseSubmitM f st scr (Except.error e) r1 r2 now = (st, scr, e) ∧
    debtSubmitM f st scr (Except.error e) r1 now = (st, scr, e) ∧
    paymentSubmitM f st scr (Except.error e) r1 r2 now = (st, scr, e) :=
  ⟨rfl, rfl, rfl, rfl⟩

/-- Cache keys written by the initial-load path of `initDashboard`
(app.js lines 195-196). -/
def initDashboardKeys (y m : ℕ) : List String := ["bootstrap", dashCacheKey y m]

/-- Cache keys written by the initial-load path of
`initCompaniesAndWorkEntries` (app.js lines 541, 545). -/
def initCompaniesKeys : List String := ["companies", "workEntries"]

/-- Cache key written by the initial-load path of `initExpenses` (app.js
line 753). -/
def initExpensesKeys : List String := ["expenses"]

/-- Cache key written by the initial-load path of `initBank` (app.js
line 869). -/
def initBankKeys : List String := ["bankSummary"]

/-- Cache key written by the initial-load path of `initDebts` (app.js
line 967). -/
def initDebtsKeys : List String := ["debts"]

/-- Cache key written by the initial-load path of `initReports` (app.js
line 1191). -/
def initReportsKeys (y m : ℕ) : List String := [reportCacheKey y m]

/-- Cache keys written by the expenses view once its create-expense
submit handler is included (app.js lines 753 and 808). -/
def expensesViewKeys : List String := ["expenses", "bankSummary"]

/-- Cache keys written by the debts view once its add-payment submit
handler is included (app.js lines 967, 1055 and 1058). -/
def debtsViewKeys : List String := ["debts", "bankSummary"]

/-- Cache keys written by the dashboard view once the close-month button
handler `closeCurrentMonthAndRefresh` is included (app.js lines 195-196
and 433-435). -/
def dashboardViewKeys (y m : ℕ) : List String :=
  ["bootstrap", dashCacheKey y m, "bankSummary"]

theorem strDataAppend (s t : String) : (s ++ t).data = s.data ++ t.data := by
  cases s; cases t; rfl

theorem str_ne_of_head (a b : String) (ca cb : Char) (ha : a.data.head? = some ca)
    (hb : b.data.head? = some cb) (hne : ca ≠ cb) : a ≠ b := by
  intro h
  rw [h, hb] at ha
  exact hne (Option.some.inj ha).symm

theorem dashCacheKey_head (y m : ℕ) : (dashCacheKey y m).data.head? = some 'd' := by
  rw [dashCacheKey, strDataAppend, strDataAppend, strDataAppend]
  rfl

theorem reportCacheKey_head (y m : ℕ) : (reportCacheKey y m).data.head? = some 'r' := by
  rw [reportCacheKey, strDataAppend, strDataAppend, strDataAppend]
  rfl

theorem dashCacheKey_ne_debts (y m : ℕ) : dashCacheKey y m ≠ "debts" := by
  intro h
  have h2 := congrArg String.data h
  rw [dashCacheKey, strDataAppend, strDataAppend, strDataAppend] at h2
  have h3 : "dashboard:".data =
      'd' :: 'a' :: 's' :: 'h' :: 'b' :: 'o' :: 'a' :: 'r' :: 'd' :: ':' :: [] := rfl
  have h4 : "debts".data = 'd' :: 'e' :: 'b' :: 't' :: 's' :: [] := rfl
  rw [h3, h4] at h2
  simp only [List.cons_append] at h2
  injection h2 with h5 h6
  injection h6 with h7 h8
  exact (by decide : ('a' : Char) ≠ 'e') h7

theorem dashKey_ne_lit (y m : ℕ) (s : String) (cb : Char)
    (hb : s.data.head? = some cb) (hne : 'd' ≠ cb) : dashCacheKey y m ≠ s :=
  str_ne_of_head _ _ 'd' cb (dashCacheKey_head y m) hb hne

theorem reportKey_ne_lit (y m : ℕ) (s : String) (cb : Char)
    (hb : s.data.head? = some cb) (hne : 'r' ≠ cb) : reportCacheKey y m ≠ s :=
  str_ne_of_head _ _ 'r' cb (reportCacheKey_head y m) hb hne

theorem dashKey_ne_reportKey (y m y2 m2 : ℕ) :
    dashCacheKey y m ≠ reportCacheKey y2 m2 :=
  str_ne_of_head _ _ 'd' 'r' (dashCacheKey_head y m) (reportCacheKey_head y2 m2)
    (by decide)

/-- C3 counterexample: once the attached action handlers are included,
the expenses, debts and dashboard code paths all write the key
"bankSummary", which the bank view also writes, so the per-view write-key
sets are not pairwise disjoint; the expense-create handler model
concretely performs that write. -/
theorem c3_counterexample :
    "bankSummary" ∈ expensesViewKeys ∧
    "bankSummary" ∈ initBankKeys ∧
    "bankSummary" ∈ debtsViewKeys ∧
    "bankSummary" ∈ dashboardViewKeys 2026 10 ∧
    ¬ (∀ k, k ∈ expensesViewKeys → k ∉ initBankKeys) ∧
    ((expenseSubmitM (StoreFailure.mk false false) (CacheState.mk [])
        VScreen.initialHtml (Except.ok JsVal.jnull) (Except.ok JsVal.jnull)
        (Except.ok JsVal.jnull) 0).1.rows.map (fun row => row.key)) =
      ["bankSummary", "expenses"] ∧
    (initBankM none (Except.ok JsVal.jnull)).1.map Prod.fst = initBankKeys := by
  refine ⟨by decide, by decide, by decide, ?_, ?_, rfl, rfl⟩
  · simp [dashboardViewKeys]
  · intro hall
    exact (hall "bankSummary" (by decide)) (by decide)

/-- C3 amended: the cache-key sets written by the six initial-load
orchestrator paths are pairwise disjoint, and each set is exactly the
list of keys its orchestrator model writes on success; disjointness fails
only once attached action handlers are included, which share the
"bankSummary" key across the bank, expenses, debts and dashboard-close
paths. -/
theorem c3_amendedKeyDisjointness (y m : ℕ) (b r v : JsVal) :
    List.Pairwise (fun a b => ∀ k, k ∈ a → k ∉ b)
      [initDashboardKeys y m, initCompaniesKeys, initExpensesKeys, initBankKeys,
        initDebtsKeys, initReportsKeys y m] ∧
    (initDashboardM y m none (Except.ok b) (Except.ok r)).1.map Prod.fst =
      initDashboardKeys y m ∧
    (initCompaniesM none none (Except.ok b) (Except.ok r)).1.map Prod.fst =
      initCompaniesKeys ∧
    (initExpensesM none (Except.ok v)).1.map Prod.fst = initExpensesKeys ∧
    (initBankM none (Except.ok v)).1.map Prod.fst = initBankKeys ∧
    (initDebtsM none (Except.ok v)).1.map Prod.fst = initDebtsKeys ∧
    (loadReportM y m none (Except.ok v)).1.map Prod.fst = initReportsKeys y m := by
  refine ⟨?_, rfl, rfl, rfl, rfl, rfl, rfl⟩
  refine List.Pairwise.cons ?_ (List.Pairwise.cons ?_ (List.Pairwise.cons ?_
    (List.Pairwise.cons ?_ (List.Pairwise.cons ?_ (List.Pairwise.cons ?_
      List.Pairwise.nil)))))
  · intro s hs k hk hk2
    simp only [List.mem_cons, List.not_mem_nil, or_false] at hs
    simp only [initDashboardKeys, List.mem_cons, List.mem_singleton,
      List.not_mem_nil, or_false] at hk
    rcases hk with rfl | rfl
    · rcases hs with rfl | rfl | rfl | rfl | rfl
      · revert hk2; decide
      · revert hk2; decide
      · revert hk2; decide
      · revert hk2; decide
      · simp only [initReportsKeys, List.mem_singleton] at hk2
        exact absurd hk2 ((reportKey_ne_lit y m "bootstrap" 'b' rfl (by decide)).symm)
    · rcases hs with rfl | rfl | rfl | rfl | rfl
      · simp only [initCompaniesKeys, List.mem_cons, List.mem_singleton,
          List.not_mem_nil, or_false] at hk2
        rcases hk2 with h | h
        · exact absurd h (dashKey_ne_lit y m "companies" 'c' rfl (by decide))
        · exact absurd h (dashKey_ne_lit y m "workEntries" 'w' rfl (by decide))
      · simp only [initExpensesKeys, List.mem_singleton] at hk2
        exact absurd hk2 (dashKey_ne_lit y m "expenses" 'e' rfl (by decide))
      · simp only [initBankKeys, List.mem_singleton] at hk2
        exact absurd hk2 (dashKey_ne_lit y m "bankSummary" 'b' rfl (by decide))
      · simp only [initDebtsKeys, List.mem_singleton] at hk2
        exact absurd hk2 (dashCacheKey_ne_debts y m)
      · simp only [initReportsKeys, List.mem_singleton] at hk2
        exact absurd hk2 (dashKey_ne_reportKey y m y m)
  · intro s hs k hk hk2
    simp only [List.mem_cons, List.not_mem_nil, or_false] at hs
    simp only [initCompaniesKeys, List.mem_cons, List.mem_singleton,
      List.not_mem_nil, or_false] at hk
    rcases hs with rfl | rfl | rfl | rfl
    · rcases hk with rfl | rfl <;> revert hk2 <;> decide
    · rcases hk with rfl | rfl <;> revert hk2 <;> decide
    · rcases hk with rfl | rfl <;> revert hk2 <;> decide
    · simp only [initReportsKeys, List.mem_singleton] at hk2
      rcases hk with rfl | rfl
      · exact absurd hk2 ((reportKey_ne_lit y m "companies" 'c' rfl (by decide)).symm)
      · exact absurd hk2 ((reportKey_ne_lit y m "workEntries" 'w' rfl (by decide)).symm)
  · intro s hs k hk hk2
    simp only [List.mem_cons, List.not_mem_nil, or_false] at hs
    simp only [initExpensesKeys, List.mem_singleton] at hk
    subst hk
    rcases hs with rfl | rfl | rfl
    · revert hk2; decide
    · revert hk2; decide
    · simp only [initReportsKeys, List.mem_singleton] at hk2
      exact absurd hk2 ((reportKey_ne_lit y m "expenses" 'e' rfl (by decide)).symm)
  · intro s hs k hk hk2
    simp only [List.mem_cons, List.not_mem_nil, or_false] at hs
    simp only [initBankKeys, List.mem_singleton] at hk
    subst hk
    rcases hs with rfl | rfl
    · revert hk2; decide
    · simp only [initReportsKeys, List.mem_singleton] at hk2
      exact absurd hk2 ((reportKey_ne_lit y m "bankSummary" 'b' rfl (by decide)).symm)
  · intro s hs k hk hk2
    simp only [List.mem_cons, List.not_mem_nil, or_false] at hs
    simp only [initDebtsKeys, List.mem_singleton] at hk
    subst hk
    rcases hs with rfl
    simp only [initReportsKeys, List.mem_singleton] at hk2
    exact absurd hk2 ((reportKey_ne_lit y m "debts" 'd' rfl (by decide)).symm)
  · intro s hs
    exact absurd hs (List.not_mem_nil s)

/-- Model of `doubleConfirm` (app.js lines 203-206): `c1`, `c2` are the
user's answers to the two `confirm` dialogs; returns the prompts actually
shown, in order, and whether the action may proceed.  The second,
separately worded prompt appears only after the first is accepted. -/
def doubleConfirm (message : String) (c1 c2 : Bool) : List String × Bool :=
  if !c1 then ([message], false)
  else ([message, "Confirmación final: ¿seguro?"], c2)

/-- Admin plan-change handler (app.js lines 244-254): the POST is issued
only when `doubleConfirm` succeeds. -/
def setPlanAction (message : String) (c1 c2 : Bool) : List String :=
  if (doubleConfirm message c1 c2).2 then ["POST /api/admin/users/:id/set-plan"]
  else []

/-- Admin suspend/activate handler (app.js lines 259-269). -/
def suspendAction (message : String) (c1 c2 : Bool) : List String :=
  if (doubleConfirm message c1 c2).2 then ["POST /api/admin/users/:id/suspend"]
  else []

/-- Admin role-change handler (app.js lines 283-293). -/
def setRoleAction (message : String) (c1 c2 : Bool) : List String :=
  if (doubleConfirm message c1 c2).2 then ["POST /api/admin/users/:id/set-role"]
  else []

/-- Admin soft-delete handler (app.js lines 300-304). -/
def softDeleteAction (message : String) (c1 c2 : Bool) : List String :=
  if (doubleConfirm message c1 c2).2 then ["POST /api/admin/users/:id/soft-delete"]
  else []

/-- Owner-claim handler (app.js lines 353-361). -/
def claimOwnerAction (c1 c2 : Bool) : List String :=
  if (doubleConfirm "Convertir esta cuenta en OWNER?" c1 c2).2 then
    ["POST /api/admin/bootstrap/claim-owner"]
  else []

/-- Dashboard close-month button via `closeCurrentMonthAndRefresh`
(app.js lines 424-437): the POST is guarded by `doubleConfirm`. -/
def closeMonthButtonAction (message : String) (c1 c2 : Bool) : List String :=
  if (doubleConfirm message c1 c2).2 then ["POST /api/months/close"] else []

/-- Month-close form submit on the bank view (app.js lines 925-947): the
handler issues the POST without consulting any confirmation dialog; the
confirmation-answer arguments are deliberately unused, mirroring the
absence of any `confirm` call in that handler. -/
def monthCloseFormAction (_c1 _c2 : Bool) : List String :=
  ["POST /api/months/close"]

/-- C8 counterexample: the month-close form on the bank view issues its
network call although no confirmation was asked — with both confirmation
answers negative, the issued-call list is still nonempty, refuting the
claim that every destructive action (month close included) proceeds only
after two successful confirmations. -/
theorem c8_counterexample :
    monthCloseFormAction false false = ["POST /api/months/close"] ∧
    monthCloseFormAction false false ≠ [] :=
  ⟨rfl, fun h => List.cons_ne_nil _ _ h⟩

/-- C8 amended: the admin actions (plan change, suspension, role change,
soft delete, owner claim) and the dashboard close-month button issue
their network call exactly when both sequential confirmations succeed —
cancelling either aborts with no call, a single confirmation is never
sufficient, and the second, separately worded prompt is shown only after
the first succeeds; the bank view's month-close form, however, issues its
call without any confirmation. -/
theorem c8_amendedDoubleConfirm (message : String) (c1 c2 : Bool) :
    (doubleConfirm message c1 c2).2 = (c1 && c2) ∧
    (doubleConfirm message false c2).1 = [message] ∧
    (doubleConfirm message true c2).1 = [message, "Confirmación final: ¿seguro?"] ∧
    setPlanAction message c1 c2 =
      (if c1 && c2 then ["POST /api/admin/users/:id/set-plan"] else []) ∧
    suspendAction message c1 c2 =
      (if c1 && c2 then ["POST /api/admin/users/:id/suspend"] else []) ∧
    setRoleAction message c1 c2 =
      (if c1 && c2 then ["POST /api/admin/users/:id/set-role"] else []) ∧
    softDeleteAction message c1 c2 =
      (if c1 && c2 then ["POST /api/admin/users/:id/soft-delete"] else []) ∧
    claimOwnerAction c1 c2 =
      (if c1 && c2 then ["POST /api/admin/bootstrap/claim-owner"] else []) ∧
    closeMonthButtonAction message c1 c2 =
      (if c1 && c2 then ["POST /api/months/close"] else []) ∧
    monthCloseFormAction c1 c2 = ["POST /api/months/close"] := by
  cases c1 <;> cases c2 <;>
    exact ⟨rfl, rfl, rfl, rfl, rfl, rfl, rfl, rfl, rfl, rfl⟩
